import Mathlib

/-!
Verification of the comment-lifecycle core of a social-media backend
(comments on posts with a denormalized `commentsCount` counter and a
best-effort notification side effect), together with the documented
posts-read view contract and the HTTP client's 401-refresh-retry logic.

The repository provides only the framework wiring of the comments module
(`src/comments/comments.module.ts`) and a frontend integration guide; the
`CommentsService` implementation itself is not in the provided sources, so
the comment operations below are modelled from the specification's
component design (its §4.1-§4.4 step lists, error taxonomy and interfaces).
The HTTP client model is translated from the axios interceptor code
embedded in the integration guide.
-/

/-- Error taxonomy of the comment core (spec §7). -/
inductive CError where
  | ValidationError
  | NotFoundError
  | ForbiddenError
deriving DecidableEq, Repr

instance {ε α : Type} [DecidableEq ε] [DecidableEq α] :
    DecidableEq (Except ε α) := fun x y =>
  match x, y with
  | Except.ok a, Except.ok b =>
    if h : a = b then Decidable.isTrue (by rw [h])
    else Decidable.isFalse (fun hc => h (Except.ok.inj hc))
  | Except.error a, Except.error b =>
    if h : a = b then Decidable.isTrue (by rw [h])
    else Decidable.isFalse (fun hc => h (Except.error.inj hc))
  | Except.ok _, Except.error _ =>
    Decidable.isFalse (fun hc => Except.noConfusion hc)
  | Except.error _, Except.ok _ =>
    Decidable.isFalse (fun hc => Except.noConfusion hc)

/-- Modelled from the spec: persisted Comment record shape
`{id, postId, authorId, text, parentCommentId?, createdAt}` (spec §6). -/
structure Comment where
  id : Nat
  postId : Nat
  authorId : Nat
  text : String
  parentCommentId : Option Nat
  createdAt : Nat
deriving DecidableEq, Repr

/-- Modelled from the spec: the Post attributes the comment core consumes —
its identity, its owner (for notification dispatch) and the denormalized
`commentsCount` (a non-negative integer, hence `Nat`). -/
structure Post where
  id : Nat
  ownerId : Nat
  commentsCount : Nat
deriving DecidableEq, Repr

/-- Modelled from the spec: the observable store state — the posts, the
comment records, the identity / timestamp allocators of the store, and a
count of notification dispatch attempts (to express the at-most-once
dispatch guarantee of spec §4.4). -/
structure St where
  posts : List Post
  comments : List Comment
  nextId : Nat
  nextTime : Nat
  notifAttempts : Nat
deriving DecidableEq, Repr

/-- Modelled from the spec: the spec bounds `text` length without naming
the bound; a concrete bound stands in for it. -/
def maxTextLength : Nat := 500

def findPost (st : St) (pid : Nat) : Option Post :=
  st.posts.find? (fun p => p.id == pid)

/-- Modelled from the spec: post lookup / existence check consumed from
the excluded collaborator (spec §6). -/
def postExists (st : St) (pid : Nat) : Bool :=
  (findPost st pid).isSome

def findComment (st : St) (cid : Nat) : Option Comment :=
  st.comments.find? (fun c => c.id == cid)

/-- Modelled from the spec: step 3 of `createComment` — a given
`parentCommentId` must resolve to a comment belonging to the same post. -/
def validParent (st : St) (pid : Nat) : Option Nat → Bool
  | none => true
  | some pcid =>
    match findComment st pcid with
    | none => false
    | some pc => pc.postId == pid

/-- The `commentsCount` of the post `pid` in state `st`, when the post
exists. -/
def countOf (st : St) (pid : Nat) : Option Nat :=
  (findPost st pid).map (fun p => p.commentsCount)

/-- Modelled from the spec: `increment(postId)` of the Post Counter
Updater — atomically adds 1 to the post's `commentsCount`, signalling
`NotFoundError` if the post no longer exists (spec §4.2). -/
def incCount (st : St) (pid : Nat) : Except CError St :=
  if postExists st pid then
    Except.ok { st with
      posts := st.posts.map (fun p =>
        if p.id == pid then { p with commentsCount := p.commentsCount + 1 } else p) }
  else
    Except.error CError.NotFoundError

/-- Modelled from the spec: `decrement(postId)` of the Post Counter
Updater — atomically subtracts 1, clamped at 0 (`Nat` subtraction). -/
def decCount (st : St) (pid : Nat) : St :=
  { st with
    posts := st.posts.map (fun p =>
      if p.id == pid then { p with commentsCount := p.commentsCount - 1 } else p) }

/-- Modelled from the spec: the external notification dispatcher; its
outcome is abstracted to a single boolean saying whether this dispatch
fails (spec §4.3). -/
def notifyNewComment (fails : Bool) : Except Unit Unit :=
  if fails then Except.error () else Except.ok ()

/-- Modelled from the spec: `createComment(postId, authorId, text,
parentCommentId?)`, following spec §4.4 steps 1-7: validate text, resolve
the post, validate the parent, insert the comment, increment the counter
(propagating its error without rolling back the insert), dispatch the
notification swallowing its failure, and return the created comment.
The state is threaded explicitly; an error before any mutation returns
the input state unchanged. `notifyFails` is the injected dispatcher
outcome. -/
def createComment (st : St) (postId authorId : Nat) (text : String)
    (parentCommentId : Option Nat) (notifyFails : Bool) :
    St × Except CError Comment :=
  if text.isEmpty || maxTextLength < text.length then
    (st, Except.error CError.ValidationError)
  else if !postExists st postId then
    (st, Except.error CError.NotFoundError)
  else if !validParent st postId parentCommentId then
    (st, Except.error CError.ValidationError)
  else
    let c : Comment :=
      { id := st.nextId, postId := postId, authorId := authorId,
        text := text, parentCommentId := parentCommentId,
        createdAt := st.nextTime }
    let st1 := { st with
      comments := st.comments ++ [c],
      nextId := st.nextId + 1, nextTime := st.nextTime + 1 }
    match incCount st1 postId with
    | Except.error e => (st1, Except.error e)
    | Except.ok st2 =>
      let st3 := { st2 with notifAttempts := st2.notifAttempts + 1 }
      match notifyNewComment notifyFails with
      | Except.error _ => (st3, Except.ok c)
      | Except.ok _ => (st3, Except.ok c)

/-- The success marker `{deleted: true}` returned by `deleteComment`. -/
structure DeleteResult where
  deleted : Bool
deriving DecidableEq, Repr

/-- Modelled from the spec: `deleteComment(commentId, requestingUserId)`,
following spec §4.4: resolve the comment (`NotFoundError` if absent),
check the requester is the author (`ForbiddenError` otherwise), delete
the comment, decrement the post's counter, return the success marker. -/
def deleteComment (st : St) (commentId requestingUserId : Nat) :
    St × Except CError DeleteResult :=
  match findComment st commentId with
  | none => (st, Except.error CError.NotFoundError)
  | some c =>
    if c.authorId != requestingUserId then
      (st, Except.error CError.ForbiddenError)
    else
      let st1 := { st with
        comments := st.comments.filter (fun x => x.id != commentId) }
      (decCount st1 c.postId, Except.ok { deleted := true })

/-- Comments ordered by `createdAt` ascending. -/
def commentLE (a b : Comment) : Prop :=
  a.createdAt ≤ b.createdAt

instance : DecidableRel commentLE := fun a b =>
  Nat.decLe a.createdAt b.createdAt

instance : IsTotal Comment commentLE :=
  ⟨fun a b => Nat.le_total a.createdAt b.createdAt⟩

instance : IsTrans Comment commentLE :=
  ⟨fun _ _ _ h1 h2 => Nat.le_trans h1 h2⟩

/-- Modelled from the spec: `listByPost(postId, pagination)` of the
Comment Store — the comments of a post ordered by `createdAt` ascending
(spec §4.1). -/
def listByPost (st : St) (pid : Nat) : List Comment :=
  List.insertionSort commentLE (st.comments.filter (fun c => c.postId == pid))

/-- The page-plus-metadata shape `{items, total, page, limit}` returned
by `listComments` (spec §6). -/
structure PageResult where
  items : List Comment
  total : Nat
  page : Nat
  limit : Nat
deriving DecidableEq, Repr

/-- Modelled from the spec: `listComments(postId, page, limit)` delegates
to `listByPost` and returns the requested page (1-based) plus the total
count (spec §4.4). -/
def listComments (st : St) (pid page limit : Nat) : PageResult :=
  let all := listByPost st pid
  { items := (all.drop ((page - 1) * limit)).take limit,
    total := all.length, page := page, limit := limit }

/-- Consistency of a store state: comment identities are unique and below
the allocator, and every post's `commentsCount` equals the number of
non-deleted comments referencing it (spec §3 invariants; counts are `Nat`,
hence non-negative by construction). -/
def Consistent (st : St) : Prop :=
  st.comments.Pairwise (fun a b => a.id ≠ b.id) ∧
  (∀ c ∈ st.comments, c.id < st.nextId) ∧
  ∀ p ∈ st.posts,
    p.commentsCount = (st.comments.filter (fun c => c.postId == p.id)).length

/-- States reachable via successful `createComment` / `deleteComment`
calls from an initially consistent state. -/
inductive Reachable : St → Prop where
  | init (st : St) : Consistent st → Reachable st
  | create (st st' : St) (p a : Nat) (t : String) (par : Option Nat)
      (nf : Bool) (c : Comment) : Reachable st →
      createComment st p a t par nf = (st', Except.ok c) → Reachable st'
  | delete (st st' : St) (cid uid : Nat) (r : DeleteResult) : Reachable st →
      deleteComment st cid uid = (st', Except.ok r) → Reachable st'

/-
The posts-read view contract, modelled from the integration guide
(`FRONTEND_INTEGRATION_GUIDE.md`): the backend posts service code is not
in the provided sources; the guide documents that every returned post
carries `isLiked`, `isSaved` and `userRating`, with `false`/`false`/`null`
for unauthenticated callers.
-/

/-- Modelled from the spec: the per-viewer fields of a returned post. The
structure type makes the three fields total, i.e. always present. -/
structure PostView where
  postId : Nat
  isLiked : Bool
  isSaved : Bool
  userRating : Option Nat
deriving DecidableEq, Repr

/-- Modelled from the spec: the authenticated caller's data the view is
derived from (liked posts, saved posts, ratings keyed by post). -/
structure Viewer where
  userId : Nat
  likedPosts : List Nat
  savedPosts : List Nat
  ratings : List (Nat × Nat)
deriving DecidableEq, Repr

/-- Modelled from the spec: building the post view for an optional
viewer; an unauthenticated caller (`none`) gets `isLiked = false`,
`isSaved = false`, `userRating = null`. -/
def buildPostView (viewer : Option Viewer) (p : Post) : PostView :=
  match viewer with
  | none =>
    { postId := p.id, isLiked := false, isSaved := false, userRating := none }
  | some v =>
    { postId := p.id,
      isLiked := v.likedPosts.contains p.id,
      isSaved := v.savedPosts.contains p.id,
      userRating := (v.ratings.find? (fun r => r.1 == p.id)).map (fun r => r.2) }

/-- Modelled from the spec: the feed endpoint `GET /api/posts` — every
stored post rendered for the (optional) viewer. -/
def getPostsFeed (viewer : Option Viewer) (posts : List Post) : List PostView :=
  posts.map (buildPostView viewer)

/-- Modelled from the spec: the detail endpoint `GET /api/posts/:id`. -/
def getPostDetail (viewer : Option Viewer) (posts : List Post) (pid : Nat) :
    Option PostView :=
  (posts.find? (fun p => p.id == pid)).map (buildPostView viewer)

/-
The HTTP client's response interceptor, translated from the axios client
code embedded in the integration guide: a 401 response on a request whose
`_retry` flag is unset triggers one token refresh and one retry of the
original request (with `_retry` set); a failed refresh clears the auth
cookies and rejects with the refresh error.
-/

/-- The auth cookies the client keeps (`accessToken`, `refreshToken`,
`currentUser`). -/
structure Cookies where
  accessToken : Option String
  refreshToken : Option String
  currentUser : Option String
deriving DecidableEq, Repr

/-- The request configuration state the interceptor reads and writes. -/
structure Req where
  auth : Option String
  _retry : Bool
deriving DecidableEq, Repr

/-- Outcome of one raw HTTP send of the request. -/
inductive HttpResult where
  | ok
  | err401
  | errOther
deriving DecidableEq, Repr

/-- What the client hands back to the caller. -/
inductive ApiOutcome where
  | success
  | unauthorized
  | otherError
  | refreshFailed
deriving DecidableEq, Repr

/-- `Cookies.remove` of all three auth cookies, as in the refresh-failure
catch block. -/
def clearAuthCookies (_ck : Cookies) : Cookies :=
  { accessToken := none, refreshToken := none, currentUser := none }

/-- One pass of the response interceptor. `res` is the raw HTTP result
of this send of the request; `refreshRes` is the outcome of
`POST /auth/refresh` (`none` = refresh request fails, `some (tok, rtok)`
= new token pair); `retry` re-enters the client with the retried request
after a successful refresh. Returns the final cookies, the outcome
delivered to the caller, and the number of sends performed. A 401 on a
request with `_retry` unset marks the request, refreshes, stores the new
tokens and retries; every other branch terminates. -/
def interceptResult (res : HttpResult)
    (refreshRes : Option (String × String)) (ck : Cookies) (req : Req)
    (retry : Cookies → String → Cookies × ApiOutcome × Nat) :
    Cookies × ApiOutcome × Nat :=
  match res with
  | HttpResult.ok => (ck, ApiOutcome.success, 1)
  | HttpResult.errOther => (ck, ApiOutcome.otherError, 1)
  | HttpResult.err401 =>
    if req._retry then (ck, ApiOutcome.unauthorized, 1)
    else
      match ck.refreshToken with
      | none => (clearAuthCookies ck, ApiOutcome.refreshFailed, 1)
      | some _ =>
        match refreshRes with
        | none => (clearAuthCookies ck, ApiOutcome.refreshFailed, 1)
        | some (tok, rtok) =>
          let ck2 := { ck with accessToken := some tok, refreshToken := some rtok }
          let out := retry ck2 tok
          (out.1, out.2.1, out.2.2 + 1)

/-- The interceptor loop: each send's result goes through
`interceptResult`, whose retry continuation re-enters the loop. In the
source the recursion is bounded by the `_retry` guard alone (the retried
request has `_retry` set, so the 401 branch cannot retry again); the
fuel argument only makes that bound structural and is never exhausted
from the entry point `apiRequest`, which supplies fuel 2. -/
def apiRequestAux (send : Nat → HttpResult)
    (refreshRes : Option (String × String)) :
    Nat → Cookies → Req → Nat → Cookies × ApiOutcome × Nat
  | 0, ck, _, _ => (ck, ApiOutcome.refreshFailed, 0)
  | Nat.succ fuel, ck, req, i =>
    interceptResult (send i) refreshRes ck req (fun ck2 tok =>
      apiRequestAux send refreshRes fuel ck2
        { auth := some tok, _retry := true } (i + 1))

/-- The request path through the response interceptor. -/
def apiRequest (send : Nat → HttpResult) (refreshRes : Option (String × String))
    (ck : Cookies) (req : Req) (i : Nat) : Cookies × ApiOutcome × Nat :=
  apiRequestAux send refreshRes 2 ck req i

/-! ### Derived forms of the operations, for the proofs -/

/-- The comment record `createComment` inserts on success. -/
def newComment (st : St) (p a : Nat) (t : String) (par : Option Nat) : Comment :=
  { id := st.nextId, postId := p, authorId := a, text := t,
    parentCommentId := par, createdAt := st.nextTime }

/-- The state `createComment` leaves behind on success. -/
def createdState (st : St) (p a : Nat) (t : String) (par : Option Nat) : St :=
  { posts := st.posts.map (fun q =>
      if q.id == p then { q with commentsCount := q.commentsCount + 1 } else q),
    comments := st.comments ++ [newComment st p a t par],
    nextId := st.nextId + 1, nextTime := st.nextTime + 1,
    notifAttempts := st.notifAttempts + 1 }

/-- The state `deleteComment` leaves behind on success, for a deleted
comment living on post `pid`. -/
def deletedState (st : St) (cid pid : Nat) : St :=
  decCount { st with comments := st.comments.filter (fun x => x.id != cid) } pid

/-! ### Concrete states for witnesses and counterexamples -/

/-- A post with no comments yet. -/
def post1 : Post := { id := 1, ownerId := 7, commentsCount := 0 }

/-- A store holding just `post1`. -/
def st0 : St :=
  { posts := [post1], comments := [], nextId := 10, nextTime := 0,
    notifAttempts := 0 }

/-- A comment by user 2 on post 1. -/
def comment5 : Comment :=
  { id := 5, postId := 1, authorId := 2, text := "c", parentCommentId := none,
    createdAt := 3 }

/-- A store holding post 1 with the single comment `comment5`. -/
def st1 : St :=
  { posts := [{ id := 1, ownerId := 7, commentsCount := 1 }],
    comments := [comment5], nextId := 10, nextTime := 4, notifAttempts := 0 }

/-- A store holding post 1 with fifteen comments. -/
def st15 : St :=
  { posts := [{ id := 1, ownerId := 7, commentsCount := 15 }],
    comments := (List.range 15).map (fun i =>
      { id := 20 + i, postId := 1, authorId := 2, text := "c",
        parentCommentId := none, createdAt := i }),
    nextId := 100, nextTime := 100, notifAttempts := 0 }


theorem createComment_eq_validation1 (st : St) (p a : Nat) (t : String)
    (par : Option Nat) (nf : Bool)
    (h1 : (t.isEmpty || decide (maxTextLength < t.length)) = true) :
    createComment st p a t par nf = (st, Except.error CError.ValidationError) := by
  unfold createComment
  simp only [h1, if_true]

theorem createComment_eq_notfound (st : St) (p a : Nat) (t : String)
    (par : Option Nat) (nf : Bool)
    (h1 : (t.isEmpty || decide (maxTextLength < t.length)) = false)
    (h2 : postExists st p = false) :
    createComment st p a t par nf = (st, Except.error CError.NotFoundError) := by
  unfold createComment
  simp [h1, h2]

theorem createComment_eq_validation2 (st : St) (p a : Nat) (t : String)
    (par : Option Nat) (nf : Bool)
    (h1 : (t.isEmpty || decide (maxTextLength < t.length)) = false)
    (h2 : postExists st p = true)
    (h3 : validParent st p par = false) :
    createComment st p a t par nf = (st, Except.error CError.ValidationError) := by
  unfold createComment
  simp [h1, h2, h3]

theorem createComment_eq_ok (st : St) (p a : Nat) (t : String)
    (par : Option Nat) (nf : Bool)
    (h1 : (t.isEmpty || decide (maxTextLength < t.length)) = false)
    (h2 : postExists st p = true)
    (h3 : validParent st p par = true) :
    createComment st p a t par nf =
      (createdState st p a t par, Except.ok (newComment st p a t par)) := by
  unfold createComment
  simp only [h1, h2, h3, Bool.not_true, Bool.not_false, if_false, if_true]
  have hinc : incCount { st with
      comments := st.comments ++ [newComment st p a t par],
      nextId := st.nextId + 1, nextTime := st.nextTime + 1 } p =
      Except.ok { st with
        posts := st.posts.map (fun q =>
          if q.id == p then { q with commentsCount := q.commentsCount + 1 } else q),
        comments := st.comments ++ [newComment st p a t par],
        nextId := st.nextId + 1, nextTime := st.nextTime + 1 } := by
    unfold incCount
    have : postExists { st with
        comments := st.comments ++ [newComment st p a t par],
        nextId := st.nextId + 1, nextTime := st.nextTime + 1 } p = true := h2
    rw [this]
    simp
  rw [newComment] at hinc
  rw [hinc]
  cases nf <;> rfl

theorem find?_posts_map (ps : List Post) (pid : Nat) (f : Post → Post)
    (hid : ∀ p, (f p).id = p.id) :
    (ps.map (fun p => if p.id == pid then f p else p)).find? (fun p => p.id == pid)
      = (ps.find? (fun p => p.id == pid)).map f := by
  induction ps with
  | nil => rfl
  | cons q qs ih =>
    by_cases h : (q.id == pid) = true
    · rw [List.map_cons, if_pos h,
        @List.find?_cons_of_pos Post (fun x => x.id == pid) (f q)
          (qs.map (fun x => if x.id == pid then f x else x)) (by simpa [hid q] using h),
        @List.find?_cons_of_pos Post (fun x => x.id == pid) q qs h]
      rfl
    · rw [List.map_cons, if_neg h,
        @List.find?_cons_of_neg Post (fun x => x.id == pid) q
          (qs.map (fun x => if x.id == pid then f x else x)) (by simp [h]),
        @List.find?_cons_of_neg Post (fun x => x.id == pid) q qs (by simp [h])]
      exact ih

theorem countOf_createdState (st : St) (p a : Nat) (t : String)
    (par : Option Nat) :
    countOf (createdState st p a t par) p = (countOf st p).map (fun n => n + 1) := by
  unfold countOf createdState findPost
  rw [find?_posts_map st.posts p
    (fun q => { q with commentsCount := q.commentsCount + 1 }) (fun _ => rfl)]
  cases st.posts.find? (fun q => q.id == p) <;> rfl

theorem countOf_decCount (st : St) (pid : Nat) :
    countOf (decCount st pid) pid = (countOf st pid).map (fun n => n - 1) := by
  unfold countOf decCount findPost
  rw [find?_posts_map st.posts pid
    (fun q => { q with commentsCount := q.commentsCount - 1 }) (fun _ => rfl)]
  cases st.posts.find? (fun q => q.id == pid) <;> rfl

theorem countOf_deletedState (st : St) (cid pid : Nat) :
    countOf (deletedState st cid pid) pid = (countOf st pid).map (fun n => n - 1) := by
  unfold deletedState
  rw [countOf_decCount]
  rfl

theorem findComment_mem (st : St) (cid : Nat) (c : Comment)
    (h : findComment st cid = some c) : c ∈ st.comments ∧ c.id = cid := by
  refine ⟨List.mem_of_find?_eq_some h, ?_⟩
  have hp := List.find?_some h
  simpa using hp

theorem length_filter_erase_pos (l : List Comment) (c : Comment) (pid : Nat)
    (hmem : c ∈ l) (hu : l.Pairwise (fun a b => a.id ≠ b.id))
    (hp : (c.postId == pid) = true) :
    (l.filter (fun x => x.postId == pid)).length
      = ((l.filter (fun x => x.id != c.id)).filter
          (fun x => x.postId == pid)).length + 1 := by
  induction l with
  | nil => cases hmem
  | cons x l ih =>
    have hx : ∀ b ∈ l, x.id ≠ b.id := fun b hb => List.rel_of_pairwise_cons hu hb
    have hu' : l.Pairwise (fun a b => a.id ≠ b.id) := hu.of_cons
    rcases List.mem_cons.mp hmem with rfl | hmem'
    · have hkeep : l.filter (fun y => y.id != c.id) = l := by
        rw [List.filter_eq_self]
        intro b hb
        simpa using (hx b hb).symm
      simp [List.filter_cons, hp, hkeep]
    · have hxc : (x.id != c.id) = true := by simpa using hx c hmem'
      by_cases hxp : (x.postId == pid) = true
      · simp [List.filter_cons, hxp, hxc, ih hmem' hu']
      · simp [List.filter_cons, hxp, hxc, ih hmem' hu']

theorem filter_erase_neg (l : List Comment) (c : Comment) (pid : Nat)
    (hu : l.Pairwise (fun a b => a.id ≠ b.id)) (hc : c ∈ l)
    (hp : (c.postId == pid) = false) :
    (l.filter (fun x => x.id != c.id)).filter (fun x => x.postId == pid)
      = l.filter (fun x => x.postId == pid) := by
  induction l with
  | nil => rfl
  | cons x l ih =>
    have hx : ∀ b ∈ l, x.id ≠ b.id := fun b hb => List.rel_of_pairwise_cons hu hb
    have hu' : l.Pairwise (fun a b => a.id ≠ b.id) := hu.of_cons
    rcases List.mem_cons.mp hc with rfl | hmem'
    · have hkeep : l.filter (fun y => y.id != c.id) = l := by
        rw [List.filter_eq_self]
        intro b hb
        simpa using (hx b hb).symm
      simp [List.filter_cons, hp, hkeep]
    · have hxc : (x.id != c.id) = true := by simpa using hx c hmem'
      by_cases hxp : (x.postId == pid) = true
      · simp [List.filter_cons, hxp, hxc, ih hu' hmem']
      · simp [List.filter_cons, hxp, hxc, ih hu' hmem']

theorem deleteComment_eq_notfound (st : St) (cid uid : Nat)
    (h : findComment st cid = none) :
    deleteComment st cid uid = (st, Except.error CError.NotFoundError) := by
  unfold deleteComment
  rw [h]

theorem deleteComment_eq_forbidden (st : St) (cid uid : Nat) (c : Comment)
    (hc : findComment st cid = some c) (hne : c.authorId ≠ uid) :
    deleteComment st cid uid = (st, Except.error CError.ForbiddenError) := by
  unfold deleteComment
  rw [hc]
  simp [hne]

theorem deleteComment_eq_ok (st : St) (cid uid : Nat) (c : Comment)
    (hc : findComment st cid = some c) (heq : c.authorId = uid) :
    deleteComment st cid uid =
      (deletedState st cid c.postId, Except.ok { deleted := true }) := by
  unfold deleteComment
  rw [hc]
  simp [heq, deletedState]

theorem createComment_ok_inv (st st' : St) (p a : Nat) (t : String)
    (par : Option Nat) (nf : Bool) (c : Comment)
    (h : createComment st p a t par nf = (st', Except.ok c)) :
    (t.isEmpty || decide (maxTextLength < t.length)) = false ∧
    postExists st p = true ∧ validParent st p par = true ∧
    st' = createdState st p a t par ∧ c = newComment st p a t par := by
  by_cases h1 : (t.isEmpty || decide (maxTextLength < t.length)) = true
  · rw [createComment_eq_validation1 st p a t par nf h1] at h
    simp at h
  · have h1' : (t.isEmpty || decide (maxTextLength < t.length)) = false := by
      simpa using h1
    by_cases h2 : postExists st p = true
    · by_cases h3 : validParent st p par = true
      · rw [createComment_eq_ok st p a t par nf h1' h2 h3] at h
        rw [Prod.mk.injEq] at h
        obtain ⟨hst, hc⟩ := h
        cases hc
        exact ⟨h1', h2, h3, hst.symm, rfl⟩
      · rw [createComment_eq_validation2 st p a t par nf h1' h2
          (by simpa using h3)] at h
        simp at h
    · rw [createComment_eq_notfound st p a t par nf h1'
        (by simpa using h2)] at h
      simp at h

theorem deleteComment_ok_inv (st st' : St) (cid uid : Nat) (r : DeleteResult)
    (h : deleteComment st cid uid = (st', Except.ok r)) :
    ∃ c, findComment st cid = some c ∧ c.authorId = uid ∧
      r = { deleted := true } ∧ st' = deletedState st cid c.postId := by
  cases hf : findComment st cid with
  | none =>
    rw [deleteComment_eq_notfound st cid uid hf] at h
    simp at h
  | some c =>
    by_cases ha : c.authorId = uid
    · rw [deleteComment_eq_ok st cid uid c hf ha] at h
      rw [Prod.mk.injEq] at h
      obtain ⟨hst, hr⟩ := h
      cases hr
      exact ⟨c, rfl, ha, rfl, hst.symm⟩
    · rw [deleteComment_eq_forbidden st cid uid c hf ha] at h
      simp at h

theorem consistent_createdState (st : St) (p a : Nat) (t : String)
    (par : Option Nat) (hc : Consistent st) :
    Consistent (createdState st p a t par) := by
  obtain ⟨hpw, hlt, hcnt⟩ := hc
  refine ⟨?_, ?_, ?_⟩
  · show (st.comments ++ [newComment st p a t par]).Pairwise (fun a b => a.id ≠ b.id)
    rw [List.pairwise_append]
    refine ⟨hpw, List.pairwise_singleton _ _, ?_⟩
    intro x hx y hy
    have hy' : y = newComment st p a t par := by simpa using hy
    subst hy'
    exact Nat.ne_of_lt (hlt x hx)
  · show ∀ c ∈ st.comments ++ [newComment st p a t par], c.id < st.nextId + 1
    intro c hcm
    rcases List.mem_append.mp hcm with h | h
    · exact Nat.lt_succ_of_lt (hlt c h)
    · have hcn : c = newComment st p a t par := by simpa using h
      subst hcn
      exact Nat.lt_succ_self _
  · intro q' hq'
    have hq'' : q' ∈ st.posts.map (fun q =>
        if q.id == p then { q with commentsCount := q.commentsCount + 1 } else q) := hq'
    obtain ⟨q, hq, rfl⟩ := List.mem_map.mp hq''
    by_cases hqp : (q.id == p) = true
    · have hqid : q.id = p := by simpa using hqp
      rw [if_pos hqp]
      show q.commentsCount + 1
        = ((st.comments ++ [newComment st p a t par]).filter
            (fun c => c.postId == q.id)).length
      rw [List.filter_append]
      have hone : ([newComment st p a t par].filter (fun c => c.postId == q.id))
          = [newComment st p a t par] := by
        simp [newComment, hqid]
      rw [hone, List.length_append, hcnt q hq]
      rfl
    · rw [if_neg hqp]
      show q.commentsCount
        = ((st.comments ++ [newComment st p a t par]).filter
            (fun c => c.postId == q.id)).length
      have hne : p ≠ q.id := by
        intro hcontra
        exact hqp (by simp [hcontra])
      rw [List.filter_append]
      have hemp : ([newComment st p a t par].filter (fun c => c.postId == q.id))
          = [] := by
        simp [newComment, hne]
      rw [hemp, List.length_append, hcnt q hq]
      rfl

theorem consistent_deletedState (st : St) (cid : Nat) (c : Comment)
    (hfind : findComment st cid = some c) (hc : Consistent st) :
    Consistent (deletedState st cid c.postId) := by
  obtain ⟨hmem, hcid⟩ := findComment_mem st cid c hfind
  obtain ⟨hpw, hlt, hcnt⟩ := hc
  subst hcid
  refine ⟨?_, ?_, ?_⟩
  · show (st.comments.filter (fun x => x.id != c.id)).Pairwise (fun a b => a.id ≠ b.id)
    exact List.Pairwise.sublist (List.filter_sublist _) hpw
  · show ∀ x ∈ st.comments.filter (fun y => y.id != c.id), x.id < st.nextId
    intro x hx
    exact hlt x (List.mem_of_mem_filter hx)
  · intro q' hq'
    have hq'' : q' ∈ st.posts.map (fun q =>
        if q.id == c.postId then { q with commentsCount := q.commentsCount - 1 } else q) := hq'
    obtain ⟨q, hq, rfl⟩ := List.mem_map.mp hq''
    by_cases hqp : (q.id == c.postId) = true
    · have hqid : q.id = c.postId := by simpa using hqp
      rw [if_pos hqp]
      show q.commentsCount - 1
        = ((st.comments.filter (fun x => x.id != c.id)).filter
            (fun x => x.postId == q.id)).length
      have hp' : (c.postId == q.id) = true := by simp [hqid]
      have hlen := length_filter_erase_pos st.comments c q.id hmem hpw hp'
      rw [hcnt q hq]
      omega
    · rw [if_neg hqp]
      show q.commentsCount
        = ((st.comments.filter (fun x => x.id != c.id)).filter
            (fun x => x.postId == q.id)).length
      have hp' : (c.postId == q.id) = false := by
        simp only [beq_eq_false_iff_ne, ne_eq]
        intro hcontra
        exact hqp (by simp [hcontra])
      rw [filter_erase_neg st.comments c q.id hpw hmem hp']
      exact hcnt q hq

theorem reachable_consistent (st : St) (h : Reachable st) : Consistent st := by
  induction h with
  | init s hc => exact hc
  | create s s' p a t par nf c _ heq ih =>
    obtain ⟨_, _, _, hst, _⟩ := createComment_ok_inv s s' p a t par nf c heq
    subst hst
    exact consistent_createdState s p a t par ih
  | delete s s' cid uid r _ heq ih =>
    obtain ⟨c, hf, _, _, hst⟩ := deleteComment_ok_inv s s' cid uid r heq
    subst hst
    exact consistent_deletedState s cid c hf ih

/-! ### Claim theorems -/

/-- C1: for every input `(postId, authorId, text)` where the post exists
and the text is non-empty and within the length bound, `createComment`
succeeds with a comment whose `postId`, `authorId` and `text` equal the
inputs, and the post's `commentsCount` after the call is exactly one
greater than before. -/
theorem createComment_matches_and_increments (st : St) (p a : Nat)
    (t : String) (nf : Bool)
    (hp : postExists st p = true)
    (ht1 : t.isEmpty = false)
    (ht2 : t.length ≤ maxTextLength) :
    ∃ st' c, createComment st p a t none nf = (st', Except.ok c) ∧
      c.postId = p ∧ c.authorId = a ∧ c.text = t ∧
      countOf st' p = (countOf st p).map (fun n => n + 1) := by
  have h1 : (t.isEmpty || decide (maxTextLength < t.length)) = false := by
    simp [ht1, Nat.not_lt.mpr ht2]
  have h3 : validParent st p none = true := rfl
  exact ⟨createdState st p a t none, newComment st p a t none,
    createComment_eq_ok st p a t none nf h1 hp h3, rfl, rfl, rfl,
    countOf_createdState st p a t none⟩

/-- Witness for C1 at a concrete store. -/
theorem createComment_matches_and_increments_witness :
    postExists st0 1 = true ∧ ("hi").isEmpty = false ∧
    ("hi").length ≤ maxTextLength ∧
    ∃ st' c, createComment st0 1 2 "hi" none false = (st', Except.ok c) ∧
      c.postId = 1 ∧ c.authorId = 2 ∧ c.text = "hi" ∧
      countOf st' 1 = (countOf st0 1).map (fun n => n + 1) :=
  ⟨by decide, by decide, by decide,
    createComment_matches_and_increments st0 1 2 "hi" false (by decide)
      (by decide) (by decide)⟩

/-- C2 counterexample: an input whose `postId` references no existing post
but whose text is empty fails with `ValidationError`, not `NotFoundError`
(text validation runs before post resolution). -/
theorem createComment_missing_post_cex :
    postExists st0 9 = false ∧
    createComment st0 9 2 "" none false
      = (st0, Except.error CError.ValidationError) ∧
    (createComment st0 9 2 "" none false).2
      ≠ Except.error CError.NotFoundError := by
  refine ⟨by decide, by decide, ?_⟩
  decide

/-- C2 (amended): for every input with valid text whose `postId` does not
reference an existing post, `createComment` fails with `NotFoundError` and
the state is unchanged — no comment is persisted and no counter changes
(atomic failure). -/
theorem createComment_missing_post (st : St) (p a : Nat) (t : String)
    (par : Option Nat) (nf : Bool)
    (ht1 : t.isEmpty = false) (ht2 : t.length ≤ maxTextLength)
    (hp : postExists st p = false) :
    createComment st p a t par nf = (st, Except.error CError.NotFoundError) := by
  apply createComment_eq_notfound
  · simp [ht1, Nat.not_lt.mpr ht2]
  · exact hp

/-- Witness for C2 (amended) at a concrete store. -/
theorem createComment_missing_post_witness :
    ("hi").isEmpty = false ∧ ("hi").length ≤ maxTextLength ∧
    postExists st0 9 = false ∧
    createComment st0 9 2 "hi" none false
      = (st0, Except.error CError.NotFoundError) :=
  ⟨by decide, by decide, by decide,
    createComment_missing_post st0 9 2 "hi" none false (by decide) (by decide)
      (by decide)⟩

/-- C4: when the insert succeeds while the notification dispatch fails,
the result is identical to the one with a succeeding dispatcher — the
created comment is still returned (the failure is never surfaced), the
post's `commentsCount` is still incremented by one, and the notification
was attempted exactly once (hence at most once) for this insert. -/
theorem notify_failure_absorbed (st st' : St) (p a : Nat) (t : String)
    (par : Option Nat) (c : Comment)
    (h : createComment st p a t par true = (st', Except.ok c)) :
    createComment st p a t par false = (st', Except.ok c) ∧
    countOf st' p = (countOf st p).map (fun n => n + 1) ∧
    st'.notifAttempts = st.notifAttempts + 1 := by
  obtain ⟨h1, h2, h3, hst, hc⟩ := createComment_ok_inv st st' p a t par true c h
  subst hst
  subst hc
  exact ⟨createComment_eq_ok st p a t par false h1 h2 h3,
    countOf_createdState st p a t par, rfl⟩

/-- Witness for C4 at a concrete store. -/
theorem notify_failure_absorbed_witness :
    createComment st0 1 2 "hi" none true
      = (createdState st0 1 2 "hi" none,
          Except.ok (newComment st0 1 2 "hi" none)) ∧
    (createComment st0 1 2 "hi" none false
        = (createdState st0 1 2 "hi" none,
            Except.ok (newComment st0 1 2 "hi" none)) ∧
      countOf (createdState st0 1 2 "hi" none) 1
        = (countOf st0 1).map (fun n => n + 1) ∧
      (createdState st0 1 2 "hi" none).notifAttempts
        = st0.notifAttempts + 1) :=
  ⟨by decide,
    notify_failure_absorbed st0 (createdState st0 1 2 "hi" none) 1 2 "hi" none
      (newComment st0 1 2 "hi" none) (by decide)⟩

/-- C5: for every existing comment and every requesting user who is not
its author, `deleteComment` fails with `ForbiddenError` and leaves the
state — comment records and counters — unchanged. -/
theorem deleteComment_non_author_forbidden (st : St) (cid uid : Nat)
    (c : Comment) (hc : findComment st cid = some c)
    (hne : c.authorId ≠ uid) :
    deleteComment st cid uid = (st, Except.error CError.ForbiddenError) :=
  deleteComment_eq_forbidden st cid uid c hc hne

/-- Witness for C5 at a concrete store. -/
theorem deleteComment_non_author_forbidden_witness :
    findComment st1 5 = some comment5 ∧ comment5.authorId ≠ 3 ∧
    deleteComment st1 5 3 = (st1, Except.error CError.ForbiddenError) :=
  ⟨by decide, by decide,
    deleteComment_non_author_forbidden st1 5 3 comment5 (by decide) (by decide)⟩

/-- C6: `deleteComment` is not idempotent — for every existing comment
whose author requests deletion, the first call succeeds returning the
marker `{deleted := true}` and the second call with the same `commentId`
fails with `NotFoundError`. -/
theorem deleteComment_twice (st : St) (cid : Nat) (c : Comment)
    (hc : findComment st cid = some c) :
    ∃ st', deleteComment st cid c.authorId
        = (st', Except.ok { deleted := true }) ∧
      deleteComment st' cid c.authorId
        = (st', Except.error CError.NotFoundError) := by
  refine ⟨deletedState st cid c.postId,
    deleteComment_eq_ok st cid c.authorId c hc rfl, ?_⟩
  apply deleteComment_eq_notfound
  show (st.comments.filter (fun x => x.id != cid)).find? (fun x => x.id == cid)
    = none
  rw [List.find?_eq_none]
  intro x hx
  have hxid := (List.mem_filter.mp hx).2
  simp only [bne_iff_ne, ne_eq] at hxid
  simpa using hxid

/-- Witness for C6 at a concrete store. -/
theorem deleteComment_twice_witness :
    findComment st1 5 = some comment5 ∧
    ∃ st', deleteComment st1 5 comment5.authorId
        = (st', Except.ok { deleted := true }) ∧
      deleteComment st' 5 comment5.authorId
        = (st', Except.error CError.NotFoundError) :=
  ⟨by decide, deleteComment_twice st1 5 comment5 (by decide)⟩

/-- C3 counterexample: with valid text, a missing post and a
`parentCommentId` that does not resolve to a comment of the same post,
`createComment` fails with `NotFoundError`, not `ValidationError` (post
resolution, step 2, precedes parent validation, step 3) — refuting the
claimed "exactly when". -/
theorem createComment_validation_cex :
    validParent st0 9 (some 5) = false ∧
    postExists st0 9 = false ∧
    (createComment st0 9 2 "hi" (some 5) false).2
      = Except.error CError.NotFoundError ∧
    (createComment st0 9 2 "hi" (some 5) false).2
      ≠ Except.error CError.ValidationError := by
  exact ⟨by decide, by decide, by decide, by decide⟩

/-- C3 (amended): `createComment` fails with `ValidationError` exactly
when the text is empty or exceeds the length bound, or when the post
exists and a `parentCommentId` is given that does not resolve to a
comment belonging to the same `postId`; in every such case the state is
unchanged — no comment is persisted and no counter change occurs. -/
theorem createComment_validation_iff (st : St) (p a : Nat) (t : String)
    (par : Option Nat) (nf : Bool) :
    ((createComment st p a t par nf).2 = Except.error CError.ValidationError ↔
      (t.isEmpty = true ∨ maxTextLength < t.length ∨
        (postExists st p = true ∧ validParent st p par = false))) ∧
    ((createComment st p a t par nf).2 = Except.error CError.ValidationError →
      (createComment st p a t par nf).1 = st) := by
  by_cases h1 : (t.isEmpty || decide (maxTextLength < t.length)) = true
  · rw [createComment_eq_validation1 st p a t par nf h1]
    have hd : t.isEmpty = true ∨ maxTextLength < t.length := by simpa using h1
    refine ⟨⟨fun _ => ?_, fun _ => rfl⟩, fun _ => rfl⟩
    rcases hd with h | h
    · exact Or.inl h
    · exact Or.inr (Or.inl h)
  · have h1' : (t.isEmpty || decide (maxTextLength < t.length)) = false := by
      simpa using h1
    have hgood : ¬(t.isEmpty = true ∨ maxTextLength < t.length) := by
      rw [Bool.or_eq_false_iff] at h1'
      rcases h1' with ⟨he, hl⟩
      rintro (h | h)
      · rw [he] at h; cases h
      · exact absurd h (by simpa using hl)
    by_cases h2 : postExists st p = true
    · by_cases h3 : validParent st p par = true
      · rw [createComment_eq_ok st p a t par nf h1' h2 h3]
        refine ⟨⟨fun hcon => ?_, fun hd => ?_⟩, fun hcon => ?_⟩
        · cases hcon
        · rcases hd with h | h | ⟨_, hv⟩
          · exact absurd (Or.inl h) hgood
          · exact absurd (Or.inr h) hgood
          · rw [h3] at hv; cases hv
        · cases hcon
      · have h3' : validParent st p par = false := by simpa using h3
        rw [createComment_eq_validation2 st p a t par nf h1' h2 h3']
        exact ⟨⟨fun _ => Or.inr (Or.inr ⟨h2, h3'⟩), fun _ => rfl⟩, fun _ => rfl⟩
    · have h2' : postExists st p = false := by simpa using h2
      rw [createComment_eq_notfound st p a t par nf h1' h2']
      refine ⟨⟨fun hcon => ?_, fun hd => ?_⟩, fun hcon => ?_⟩
      · cases hcon
      · rcases hd with h | h | ⟨hpe, _⟩
        · exact absurd (Or.inl h) hgood
        · exact absurd (Or.inr h) hgood
        · rw [h2'] at hpe; cases hpe
      · cases hcon

/-- Witness for C3 (amended) at a concrete store and input. -/
theorem createComment_validation_iff_witness :
    (((createComment st0 1 2 "" none false).2
        = Except.error CError.ValidationError ↔
      (("").isEmpty = true ∨ maxTextLength < ("").length ∨
        (postExists st0 1 = true ∧ validParent st0 1 none = false))) ∧
    ((createComment st0 1 2 "" none false).2
        = Except.error CError.ValidationError →
      (createComment st0 1 2 "" none false).1 = st0)) :=
  createComment_validation_iff st0 1 2 "" none false

/-- C7: in every state reachable via `createComment` and `deleteComment`
from an initially consistent state, each post's `commentsCount` equals
the number of non-deleted comments referencing it (and, being a `Nat`,
is never negative); moreover each successful delete changes the deleted
comment's post count to exactly one less, clamped at 0 by `Nat`
subtraction. -/
theorem commentsCount_invariant (st : St) (h : Reachable st) :
    (∀ p ∈ st.posts,
      p.commentsCount
        = (st.comments.filter (fun c => c.postId == p.id)).length) ∧
    ∀ cid uid st' r, deleteComment st cid uid = (st', Except.ok r) →
      ∀ c, findComment st cid = some c →
        countOf st' c.postId = (countOf st c.postId).map (fun n => n - 1) := by
  have hcons := reachable_consistent st h
  refine ⟨hcons.2.2, ?_⟩
  intro cid uid st' r hdel c hfind
  obtain ⟨c', hf', _, _, hst⟩ := deleteComment_ok_inv st st' cid uid r hdel
  rw [hfind] at hf'
  cases hf'
  subst hst
  exact countOf_deletedState st cid c.postId

/-- Witness for C7 at a concrete reachable store. -/
theorem commentsCount_invariant_witness :
    (∀ p ∈ st1.posts,
      p.commentsCount
        = (st1.comments.filter (fun c => c.postId == p.id)).length) ∧
    ∀ cid uid st' r, deleteComment st1 cid uid = (st', Except.ok r) →
      ∀ c, findComment st1 cid = some c →
        countOf st' c.postId = (countOf st1 c.postId).map (fun n => n - 1) :=
  commentsCount_invariant st1 (Reachable.init st1
    ⟨List.pairwise_singleton _ _, by decide, by decide⟩)

/-- C8: `listComments` returns the post's comments ordered by `createdAt`
ascending, sliced to the requested 1-based page of the given limit,
together with the total count of that post's comments; in particular a
total of 15 with page 2 and limit 10 yields exactly 5 items. -/
theorem listComments_ordered_paginated (st : St) (pid page limit : Nat) :
    List.Sorted commentLE (listComments st pid page limit).items ∧
    (listComments st pid page limit).items
      = ((listByPost st pid).drop ((page - 1) * limit)).take limit ∧
    (listComments st pid page limit).total
      = (st.comments.filter (fun c => c.postId == pid)).length ∧
    ((listComments st pid page limit).total = 15 → page = 2 → limit = 10 →
      (listComments st pid page limit).items.length = 5) := by
  refine ⟨?_, rfl, ?_, ?_⟩
  · have hs : List.Sorted commentLE (listByPost st pid) :=
      List.sorted_insertionSort commentLE _
    have hsub : List.Sublist
        (((listByPost st pid).drop ((page - 1) * limit)).take limit)
        (listByPost st pid) :=
      List.Sublist.trans (List.take_sublist _ _) (List.drop_sublist _ _)
    exact List.Pairwise.sublist hsub hs
  · show (listByPost st pid).length = _
    rw [listByPost, List.length_insertionSort]
  · intro ht hpg hlim
    subst hpg
    subst hlim
    have hlen : (listByPost st pid).length = 15 := ht
    show (((listByPost st pid).drop ((2 - 1) * 10)).take 10).length = 5
    rw [List.length_take, List.length_drop, hlen]
    rfl

/-- Witness for C8 at a concrete store with 15 comments on the post. -/
theorem listComments_ordered_paginated_witness :
    List.Sorted commentLE (listComments st15 1 2 10).items ∧
    (listComments st15 1 2 10).items
      = ((listByPost st15 1).drop ((2 - 1) * 10)).take 10 ∧
    (listComments st15 1 2 10).total
      = (st15.comments.filter (fun c => c.postId == 1)).length ∧
    ((listComments st15 1 2 10).total = 15 → 2 = 2 → 10 = 10 →
      (listComments st15 1 2 10).items.length = 5) :=
  listComments_ordered_paginated st15 1 2 10

/-- C9: every `PostView` returned by the posts read endpoints (feed and
detail) carries the `isLiked`, `isSaved` and `userRating` fields — they
are total fields of the structure, present for every caller — and for an
unauthenticated caller (`none`) they are `false`, `false` and `none`
(null). -/
theorem unauthenticated_post_view (posts : List Post) (pid : Nat) :
    (∀ v ∈ getPostsFeed none posts,
      v.isLiked = false ∧ v.isSaved = false ∧ v.userRating = none) ∧
    (∀ v, getPostDetail none posts pid = some v →
      v.isLiked = false ∧ v.isSaved = false ∧ v.userRating = none) := by
  constructor
  · intro v hv
    obtain ⟨q, _, rfl⟩ := List.mem_map.mp hv
    exact ⟨rfl, rfl, rfl⟩
  · intro v hv
    unfold getPostDetail at hv
    cases hfind : posts.find? (fun p => p.id == pid) with
    | none => rw [hfind] at hv; cases hv
    | some q =>
      rw [hfind] at hv
      cases hv
      exact ⟨rfl, rfl, rfl⟩

/-- Witness for C9 at a concrete post list. -/
theorem unauthenticated_post_view_witness :
    (∀ v ∈ getPostsFeed none [post1],
      v.isLiked = false ∧ v.isSaved = false ∧ v.userRating = none) ∧
    (∀ v, getPostDetail none [post1] 1 = some v →
      v.isLiked = false ∧ v.isSaved = false ∧ v.userRating = none) :=
  unauthenticated_post_view [post1] 1

/-- The retried request (its `_retry` flag set) performs at most one
further send, whatever its result. -/
theorem apiRequestAux_retried_once (send : Nat → HttpResult)
    (refreshRes : Option (String × String)) (fuel : Nat) (ck : Cookies)
    (auth : Option String) (i : Nat) :
    (apiRequestAux send refreshRes fuel ck { auth := auth, _retry := true }
      i).2.2 ≤ 1 := by
  cases fuel with
  | zero =>
    rw [apiRequestAux]
    simp
  | succ fuel =>
    rw [apiRequestAux]
    unfold interceptResult
    cases hs : send i <;> simp

/-- C10: for a request whose `_retry` flag is unset, the client performs
at most two sends in total — the original and at most one retry after a
token refresh; and if the first send yields 401 and the refresh cannot
succeed (no refresh-token cookie, or the refresh request fails), all auth
cookies are cleared and the error propagates to the caller with no
retry. -/
theorem refresh_retry_at_most_once (send : Nat → HttpResult)
    (refreshRes : Option (String × String)) (ck : Cookies) (req : Req)
    (i : Nat) (h : req._retry = false) :
    (apiRequest send refreshRes ck req i).2.2 ≤ 2 ∧
    (send i = HttpResult.err401 →
      (ck.refreshToken = none ∨ refreshRes = none) →
      apiRequest send refreshRes ck req i
        = (clearAuthCookies ck, ApiOutcome.refreshFailed, 1)) := by
  unfold apiRequest
  rw [apiRequestAux]
  unfold interceptResult
  cases hs : send i with
  | ok => exact ⟨by simp, fun hcon _ => by cases hcon⟩
  | errOther => exact ⟨by simp, fun hcon _ => by cases hcon⟩
  | err401 =>
    rw [h]
    simp only [Bool.false_eq_true, if_false]
    cases hr : ck.refreshToken with
    | none => exact ⟨by simp, fun _ _ => rfl⟩
    | some rt =>
      cases hres : refreshRes with
      | none => exact ⟨by simp, fun _ _ => rfl⟩
      | some pair =>
        constructor
        · have hle := apiRequestAux_retried_once send (some pair) 1
            { ck with accessToken := some pair.1, refreshToken := some pair.2 }
            (some pair.1) (i + 1)
          show (apiRequestAux send (some pair) 1
              { ck with accessToken := some pair.1, refreshToken := some pair.2 }
              { auth := some pair.1, _retry := true } (i + 1)).2.2 + 1 ≤ 2
          omega
        · rintro _ (hor | hor) <;> cases hor

/-- Witness for C10: a first send returning 401 with a refresh token
present but a failing refresh clears the cookies and propagates the
failure after a single send. -/
theorem refresh_retry_at_most_once_witness :
    (apiRequest (fun _ => HttpResult.err401) none
        { accessToken := some "a", refreshToken := some "r",
          currentUser := some "u" }
        { auth := some "a", _retry := false } 0).2.2 ≤ 2 ∧
    ((fun _ => HttpResult.err401) 0 = HttpResult.err401 →
      (({ accessToken := some "a", refreshToken := some "r",
          currentUser := some "u" } : Cookies).refreshToken = none ∨
        (none : Option (String × String)) = none) →
      apiRequest (fun _ => HttpResult.err401) none
          { accessToken := some "a", refreshToken := some "r",
            currentUser := some "u" }
          { auth := some "a", _retry := false } 0
        = (clearAuthCookies
            { accessToken := some "a", refreshToken := some "r",
              currentUser := some "u" },
            ApiOutcome.refreshFailed, 1)) :=
  refresh_retry_at_most_once (fun _ => HttpResult.err401) none
    { accessToken := some "a", refreshToken := some "r",
      currentUser := some "u" }
    { auth := some "a", _retry := false } 0 rfl
